import Mathlib

set_option maxHeartbeats 1000000

/-
Shallow embedding of the cross-document cause-effect extraction pipeline.

Source files embedded:
  * src/src/extract_rulebased.py  (class CauseEffectDetector)  — namespace RB
  * src/src/extract_ml.py         (class HybridCauseEffect)    — namespace ML

Modelling conventions:
  * Python strings are `List Char`; `len` is `List.length`.
  * Python floats are real numbers; `math.log` is `Real.log`, `math.sqrt`
    is `Real.sqrt`, `round(x, n)` is round-half-to-even on `x * 10^n`.
  * Python dicts keyed by strings are association lists `List (List Char × ℝ)`;
    `d.get(w, 0)` / `d[w]` is `dictGet`.
  * Python sets of strings are `Finset (List Char)` (for entity sets) or
    plain lists iterated for membership (for the fixed vocabularies).
  * The regular expressions of the source are transcribed into a small
    explicit pattern language `RE` with existential matching semantics
    (`re.search` only asks whether a match exists), plus specialised
    extraction functions for the three `findall` uses (dates, unit numbers,
    capitalised words) whose matched text is collected into the entity set.
  * Functions whose outputs stay in `Bool`/`Nat`/lists of characters are
    computable; functions producing reals are `noncomputable`.
  * `print` calls and the rejection counters of the source are I/O only and
    are not modelled; the returned values are.
-/

namespace CrossDoc

/-- ASCII word character, the regex class `\w` restricted to ASCII
(the corpus and all vocabularies are ASCII). -/
def isWordCh (c : Char) : Bool :=
  (('a' ≤ c) && (c ≤ 'z')) || (('A' ≤ c) && (c ≤ 'Z')) ||
  (('0' ≤ c) && (c ≤ '9')) || (c == '_')

/-- ASCII whitespace, the regex class `\s` / `str.split` separators. -/
def isWsCh (c : Char) : Bool :=
  (c == ' ') || (c == '\t') || (c == '\n') || (c == '\r') ||
  (c == '\x0b') || (c == '\x0c')

def isDigitCh (c : Char) : Bool := ('0' ≤ c) && (c ≤ '9')

def isLowerCh (c : Char) : Bool := ('a' ≤ c) && (c ≤ 'z')

def isUpperCh (c : Char) : Bool := ('A' ≤ c) && (c ≤ 'Z')

/-- Does the literal `p` occur in `t` starting at index `i`? -/
def matchAt (t p : List Char) (i : Nat) : Bool :=
  ((t.drop i).take p.length) == p

/-- Python `p in t`: `p` occurs somewhere in `t` as a contiguous substring. -/
def substrB (p t : List Char) : Bool :=
  (List.range (t.length + 1)).any (fun i => matchAt t p i)

/-- Is the character at index `i` a word character (out-of-range counts as no)? -/
def wordAt (t : List Char) (i : Nat) : Bool :=
  decide (i < t.length) && isWordCh (t.getD i ' ')

/-- The regex word boundary `\b` at position `i` of `t`. -/
def boundaryAt (t : List Char) (i : Nat) : Bool :=
  (decide (0 < i) && wordAt t (i - 1)) != wordAt t i

/-- `n` characters from index `i` all satisfy `f` (and they exist). -/
def allRange (t : List Char) (i n : Nat) (f : Char → Bool) : Bool :=
  decide (i + n ≤ t.length) && ((t.drop i).take n).all f

/-- The fragment of regular-expression syntax used by the source's patterns:
literals, alternations of literals, `\b`, `\s+`, `\s*`, `.{lo,hi}`, `\d{n}`. -/
inductive RE where
  | lit : List Char → RE
  | alts : List (List Char) → RE
  | bnd : RE
  | ws1 : RE
  | ws0 : RE
  | dots : Nat → Nat → RE
  | digs : Nat → RE

/-- Existential matching of a pattern sequence starting at index `i`
(`re.search` semantics restricted to "does a match exist here"). -/
def mat (t : List Char) : List RE → Nat → Bool
  | [], _ => true
  | .lit p :: rs, i => matchAt t p i && mat t rs (i + p.length)
  | .alts ps :: rs, i => ps.any (fun p => matchAt t p i && mat t rs (i + p.length))
  | .bnd :: rs, i => boundaryAt t i && mat t rs i
  | .ws1 :: rs, i => (List.range (t.length + 1)).any (fun j =>
      decide (i < j) && allRange t i (j - i) isWsCh && mat t rs j)
  | .ws0 :: rs, i => (List.range (t.length + 1)).any (fun j =>
      decide (i ≤ j) && allRange t i (j - i) isWsCh && mat t rs j)
  | .dots lo hi :: rs, i => (List.range (hi + 1)).any (fun k =>
      decide (lo ≤ k) && allRange t i k (fun c => c != '\n') && mat t rs (i + k))
  | .digs n :: rs, i => allRange t i n isDigitCh && mat t rs (i + n)

/-- `re.search(pattern, t)` succeeds somewhere in `t`. -/
def reSearch (t : List Char) (res : List RE) : Bool :=
  (List.range (t.length + 1)).any (fun i => mat t res i)

/-- `re.sub(r'[^\w\s]', ' ', ·)` on a single character. -/
def cleanCh (c : Char) : Char :=
  if isWordCh c || isWsCh c then c else ' '

def splitWsAux : List Char → List Char → List (List Char)
  | [], acc => if acc.isEmpty then [] else [acc.reverse]
  | c :: cs, acc =>
    if isWsCh c then
      (if acc.isEmpty then splitWsAux cs [] else acc.reverse :: splitWsAux cs [])
    else splitWsAux cs (c :: acc)

/-- Python `str.split()`: split on whitespace runs, dropping empty pieces. -/
def splitWs (l : List Char) : List (List Char) := splitWsAux l []

/-- `tokenize` (identical in both source modules): lowercase, replace
non-word non-space characters by spaces, split on whitespace, keep tokens
longer than 2 characters. -/
def tokenize (text : List Char) : List (List Char) :=
  (splitWs ((text.map Char.toLower).map cleanCh)).filter (fun w => decide (2 < w.length))

/-- Number of corpus sentences whose token set contains `w`
(the `freq` dict of `build_idf`). -/
def dfCount (docs : List (List Char)) (w : List Char) : Nat :=
  (docs.filter (fun d => (tokenize d).any (fun x => x == w))).length

/-- The words occurring in at least one corpus sentence
(the key set of the `freq`/`idf` dicts, in first-occurrence order). -/
def corpusWords (docs : List (List Char)) : List (List Char) :=
  ((docs.map (fun d => (tokenize d).dedup)).flatten).dedup

/-- `build_idf` (identical in both modules): `idf[w] = log(ndocs / (1 + freq[w]))`
for every word occurring in the corpus. -/
noncomputable def build_idf (docs : List (List Char)) : List (List Char × ℝ) :=
  (corpusWords docs).map
    (fun w => (w, Real.log ((docs.length : ℝ) / (1 + (dfCount docs w : ℝ)))))

/-- Dictionary lookup with default 0: `d.get(w, 0)` (also used for `v[w]` in
`cosine`, where the key is always present). -/
noncomputable def dictGet (d : List (List Char × ℝ)) (w : List Char) : ℝ :=
  match d.find? (fun p => p.1 == w) with
  | some p => p.2
  | none => 0

/-- `tfidf` (identical in both modules): term frequency normalised by the
maximum frequency in the sentence, times the IDF weight (0 if unseen). -/
noncomputable def tfidf (idf : List (List Char × ℝ)) (text : List Char) :
    List (List Char × ℝ) :=
  let words := tokenize text
  if words.isEmpty then []
  else
    let keys := words.dedup
    let mx := (keys.map (fun w => words.count w)).foldr max 0
    keys.map (fun w => (w, ((words.count w : ℝ) / (mx : ℝ)) * dictGet idf w))

open Classical in
/-- `cosine` (identical in both modules): dot product over the common keys
divided by the product of magnitudes; 0 for an empty vector or a zero
magnitude. -/
noncomputable def cosine (v1 v2 : List (List Char × ℝ)) : ℝ :=
  if v1.isEmpty || v2.isEmpty then 0
  else
    let dot := ((v1.filter (fun p => v2.any (fun q => q.1 == p.1))).map
      (fun p => p.2 * dictGet v2 p.1)).sum
    let m1 := Real.sqrt ((v1.map (fun p => p.2 ^ 2)).sum)
    let m2 := Real.sqrt ((v2.map (fun p => p.2 ^ 2)).sum)
    if 0 < m1 ∧ 0 < m2 then dot / (m1 * m2) else 0

/-- Detected causal direction: the `''` / `'forward'` / `'reverse'` strings
of the source. -/
inductive CDir where
  | non : CDir
  | forward : CDir
  | reverse : CDir
deriving DecidableEq

/-- `\b([A-Z][a-z]{3,})\b` at position `i` of the original (uncased) text:
an uppercase letter at a word boundary followed by its maximal run of at
least 3 lowercase letters ending at a word boundary; returns the matched
word. -/
def capHitAt (text : List Char) (i : Nat) : Option (List Char) :=
  if boundaryAt text i && decide (i < text.length) && isUpperCh (text.getD i ' ') then
    let r := ((text.drop (i + 1)).takeWhile isLowerCh).length
    if decide (3 ≤ r) && !(wordAt text (i + 1 + r)) then
      some ((text.getD i ' ') :: (text.drop (i + 1)).take r)
    else none
  else none

/-- All matches of `\b([A-Z][a-z]{3,})\b` in the text (`re.findall`). -/
def capHits (text : List Char) : List (List Char) :=
  (List.range (text.length + 1)).filterMap (capHitAt text)

/-- Python `round(x, n)` idealised over the reals: round half to even. -/
noncomputable def roundHalfEven (y : ℝ) : ℤ :=
  haveI := Classical.propDecidable (Int.fract y = 1/2)
  if Int.fract y = 1/2 then (if Even ⌊y⌋ then ⌊y⌋ else ⌊y⌋ + 1) else round y

noncomputable def pyRound (x : ℝ) (n : ℕ) : ℝ :=
  (roundHalfEven (x * 10 ^ n) : ℝ) / 10 ^ n

/-! ## The rule-based module: `src/src/extract_rulebased.py`, `CauseEffectDetector` -/

namespace RB

/-- `self.causal_phrases['forward']`.  The optional group of
`\bbecause\s+(of\s+)?(the|this|their|our|his|her)\b` is expanded into its two
branches (with and without `of\s+`), which preserves `re.search` semantics. -/
def fwdPats : List (List CrossDoc.RE) :=
  [ [.bnd, .alts [("caused").data, ("led to").data, ("resulted in").data,
      ("triggered").data, ("sparked").data, ("brought about").data], .bnd],
    [.bnd, .alts [("consequently").data, ("therefore").data, ("thus").data,
      ("hence").data, ("as a result").data], .bnd],
    [.bnd, .alts [("in response to").data, ("following").data, ("after the").data,
      ("due to the").data], .bnd],
    [.bnd, .lit ("when").data, .ws1, .dots 10 60, .ws0, .lit (",").data, .ws0,
      .dots 10 60, .alts [("then").data, ("we").data, ("they").data, ("he").data,
      ("she").data, ("it").data], .bnd],
    [.bnd, .lit ("because").data, .ws1, .lit ("of").data, .ws1,
      .alts [("the").data, ("this").data, ("their").data, ("our").data,
      ("his").data, ("her").data], .bnd],
    [.bnd, .lit ("because").data, .ws1,
      .alts [("the").data, ("this").data, ("their").data, ("our").data,
      ("his").data, ("her").data], .bnd] ]

/-- `self.causal_phrases['reverse']`. -/
def revPats : List (List CrossDoc.RE) :=
  [ [.bnd, .alts [("because").data, ("due to").data, ("owing to").data,
      ("on account of").data], .bnd],
    [.bnd, .alts [("as a result of").data, ("in consequence of").data], .bnd],
    [.bnd, .alts [("was caused by").data, ("resulted from").data], .bnd] ]

/-- `self.important_events`. -/
def important_events : List (List Char) :=
  [("somme").data, ("verdun").data, ("ypres").data, ("passchendaele").data,
   ("marne").data, ("gallipoli").data, ("dardanelles").data, ("jutland").data,
   ("arras").data, ("cambrai").data, ("vimy").data, ("amiens").data,
   ("messines").data, ("belleau").data, ("meuse-argonne").data,
   ("caporetto").data, ("tannenberg").data, ("france").data, ("belgium").data,
   ("flanders").data, ("picardy").data, ("alsace").data, ("lorraine").data,
   ("serbia").data, ("gallipoli peninsula").data, ("mesopotamia").data,
   ("palestine").data, ("sinai").data, ("egypt").data, ("salonika").data,
   ("cape helles").data, ("anzac cove").data, ("battalion").data,
   ("brigade").data, ("division").data, ("regiment").data, ("corps").data,
   ("army").data, ("artillery").data, ("infantry").data, ("cavalry").data,
   ("australian").data, ("british").data, ("french").data, ("german").data,
   ("turkish").data, ("anzac").data]

/-- `self.excluded`. -/
def excluded : List (List Char) :=
  [("battle").data, ("war").data, ("fight").data, ("attack").data,
   ("front").data, ("line").data, ("trench").data, ("soldier").data,
   ("officer").data, ("men").data, ("man").data, ("enemy").data,
   ("troops").data, ("forces").data, ("the").data, ("they").data, ("we").data,
   ("he").data, ("she").data, ("it").data, ("when").data, ("then").data,
   ("after").data, ("before").data, ("during").data, ("about").data,
   ("with").data, ("from").data, ("into").data, ("over").data,
   ("wounded").data, ("killed").data, ("dead").data, ("hospital").data,
   ("ambulance").data, ("casualty").data, ("shell").data, ("gun").data,
   ("rifle").data, ("bomb").data, ("bullet").data, ("fire").data,
   ("shot").data]

/-- `self.cause_words`. -/
def cause_words : List (List Char) :=
  [("bombardment").data, ("shelling").data, ("artillery fire").data,
   ("machine gun fire").data, ("gas attack").data, ("offensive").data,
   ("assault").data, ("raid").data, ("advance").data, ("counter-attack").data,
   ("barrage").data, ("explosion").data, ("ambush").data, ("charge").data,
   ("opened fire").data, ("attacked").data, ("bombed").data,
   ("torpedoed").data, ("mined").data]

/-- `self.effect_words`. -/
def effect_words : List (List Char) :=
  [("casualties").data, ("losses").data, ("killed").data, ("wounded").data,
   ("injured").data, ("died").data, ("destroyed").data, ("captured").data,
   ("retreated").data, ("surrendered").data, ("evacuated").data,
   ("hospitalized").data, ("amputation").data, ("shell shock").data,
   ("blinded").data, ("gassed").data, ("reinforcements").data,
   ("relief").data, ("treatment").data, ("operation").data]

/-- `has_causal`: search the forward patterns first (dict insertion order),
then the reverse ones; first match wins.  The matched snippet
(`m.group(0)`), used only inside explanation strings, is not modelled. -/
def has_causal (text : List Char) : Bool × CrossDoc.CDir :=
  let tl := text.map Char.toLower
  if fwdPats.any (fun p => CrossDoc.reSearch tl p) then (true, .forward)
  else if revPats.any (fun p => CrossDoc.reSearch tl p) then (true, .reverse)
  else (false, .non)

def months : List (List Char) :=
  [("january").data, ("february").data, ("march").data, ("april").data,
   ("may").data, ("june").data, ("july").data, ("august").data,
   ("september").data, ("october").data, ("november").data, ("december").data]

/-- Month names captured by `\b(january|...|december)\s+\d{4}\b`
(`findall` with one group returns the group, i.e. the month name). -/
def monthHits (tl : List Char) : List (List Char) :=
  months.filter (fun m =>
    CrossDoc.reSearch tl [.bnd, .lit m, .ws1, .digs 4, .bnd])

/-- Four-digit strings captured by `\b\d{4}\b`. -/
def yearHits (tl : List Char) : List (List Char) :=
  (List.range (tl.length + 1)).filterMap (fun i =>
    if CrossDoc.boundaryAt tl i && CrossDoc.allRange tl i 4 CrossDoc.isDigitCh &&
        CrossDoc.boundaryAt tl (i + 4) then
      some ((tl.drop i).take 4)
    else none)

def unitWords : List (List Char) :=
  [("battalion").data, ("brigade").data, ("division").data, ("regiment").data]

def ordSuffixes : List (List Char) :=
  [("st").data, ("nd").data, ("rd").data, ("th").data]

/-- One match of `\b(\d+(?:st|nd|rd|th)?\s+(?:battalion|brigade|division|regiment))\b`
starting at `i`: a maximal digit run at a word boundary, an optional ordinal
suffix, at least one whitespace character (greedy), a unit word ending at a
word boundary; returns the full matched substring. -/
def unitHitAt (tl : List Char) (i : Nat) : Option (List Char) :=
  if CrossDoc.boundaryAt tl i then
    let r := ((tl.drop i).takeWhile CrossDoc.isDigitCh).length
    if 0 < r then
      let s2 := (tl.drop (i + r)).take 2
      let suf := if ordSuffixes.any (fun s => s == s2) then 2 else 0
      let j := i + r + suf
      let w := ((tl.drop j).takeWhile CrossDoc.isWsCh).length
      if 0 < w then
        match unitWords.find? (fun u =>
            CrossDoc.matchAt tl u (j + w) &&
            CrossDoc.boundaryAt tl (j + w + u.length)) with
        | some u => some ((tl.drop i).take (r + suf + w + u.length))
        | none => none
      else none
    else none
  else none

def unitHits (tl : List Char) : List (List Char) :=
  (List.range (tl.length + 1)).filterMap (unitHitAt tl)

/-- `get_entities`: gazetteer substrings of the lowercased text, date and
unit-number matches, and capitalised words of the original text (lowercased,
excluding the stop set); the result set is filtered by the stop set again. -/
def get_entities (text : List Char) : Finset (List Char) :=
  let tl := text.map Char.toLower
  let gaz := important_events.filter (fun ev => CrossDoc.substrB ev tl)
  let dates := monthHits tl ++ yearHits tl
  let units := unitHits tl
  let caps := ((CrossDoc.capHits text).map (fun m => m.map Char.toLower)).filter
    (fun m => !(excluded.any (fun x => x == m)))
  ((gaz ++ dates ++ units ++ caps).filter
    (fun e => !(excluded.any (fun x => x == (e.map Char.toLower))))).toFinset

/-- `count_indicators`: how many vocabulary words occur as substrings of the
lowercased text. -/
def count_indicators (text : List Char) (ws : List (List Char)) : Nat :=
  (ws.filter (fun w => CrossDoc.substrB w (text.map Char.toLower))).length

/-- The rejection reason strings produced by `validate`
(`'Same file'`, `'Too short'`, `'No causal language'`,
`'Low similarity (…)'`, `'Too similar (…)'`,
`'Not enough shared entities (…)'`, `'Score … below …'`). -/
inductive Rej where
  | sameFile : Rej
  | tooShort : Rej
  | noCausal : Rej
  | lowSim : Rej
  | tooSim : Rej
  | fewShared : Rej
  | belowThresh : Rej
deriving DecidableEq

/-- The `(valid, score, details)` triple returned by `validate`; of the
`details` dict only the `'rejection'` entry is modelled. -/
structure VRes where
  valid : Prop
  score : ℝ
  rejection : Option Rej

open Classical in
/-- `CauseEffectDetector.validate` (lines 132-190), transcribed clause by
clause in source order. -/
noncomputable def validate (idf : List (List Char × ℝ)) (min_conf : ℝ)
    (cause_txt effect_txt : List Char) (cause_file effect_file : String) : VRes :=
  if cause_file = effect_file then ⟨False, 0, some .sameFile⟩
  else if cause_txt.length < 50 ∨ effect_txt.length < 50 then ⟨False, 0, some .tooShort⟩
  else
    let c_has := (has_causal cause_txt).1
    let e_has := (has_causal effect_txt).1
    if c_has = false ∧ e_has = false then ⟨False, 0, some .noCausal⟩
    else
      let s1 : ℝ := (if c_has then 0.30 else 0) + (if e_has then 0.25 else 0)
      let sim := CrossDoc.cosine (CrossDoc.tfidf idf cause_txt) (CrossDoc.tfidf idf effect_txt)
      if sim < 0.15 then ⟨False, 0, some .lowSim⟩
      else if sim > 0.65 then ⟨False, 0, some .tooSim⟩
      else
        let s2 := s1 + (if 0.25 ≤ sim ∧ sim ≤ 0.50 then 0.20
          else if 0.15 ≤ sim ∧ sim < 0.25 then 0.10 else 0)
        let shared := get_entities cause_txt ∩ get_entities effect_txt
        if shared.card < 2 then ⟨False, 0, some .fewShared⟩
        else
          let s3 := s2 + min 0.25 ((shared.card : ℝ) * 0.08)
          let s4 := s3 + (if 0 < count_indicators cause_txt cause_words then 0.10 else 0)
          let s5 := s4 + (if 0 < count_indicators effect_txt effect_words then 0.10 else 0)
          ⟨min_conf ≤ s5, min s5 1, if min_conf ≤ s5 then none else some .belowThresh⟩

/-- One input record of the corpus JSON: `{file_id, sentences}`. -/
structure FileData where
  file_id : String
  sentences : List (List Char)
deriving DecidableEq

/-- One entry of the `causes`/`effects` candidate pools built by
`find_relationships` (lines 206-222). -/
structure Candidate where
  file : String
  line : Nat
  text : List Char
  entities : Finset (List Char)
  has_c : Bool
  dir : CrossDoc.CDir
  c_cnt : Nat
  e_cnt : Nat
deriving DecidableEq

/-- One output record of `find_relationships` (the constant
`'type': 'cross_file'` field is not modelled). -/
structure RelRecord where
  cause_file : String
  cause_text : List Char
  effect_file : String
  effect_text : List Char
  confidence : ℝ

def mkEntry (fid : String) (idx : Nat) (sent : List Char) : Candidate :=
  { file := fid, line := idx, text := sent,
    entities := get_entities sent,
    has_c := (has_causal sent).1, dir := (has_causal sent).2,
    c_cnt := count_indicators sent cause_words,
    e_cnt := count_indicators sent effect_words }

/-- The indexing pass of `find_relationships` (lines 206-218): every sentence
of every file, skipping those under 50 characters, kept when it has a causal
phrase or a positive indicator count. -/
def candidateEntries (files : List FileData) : List Candidate :=
  ((files.map (fun fd =>
    fd.sentences.enum.filterMap (fun p =>
      if p.2.length < 50 then none
      else
        let en := mkEntry fd.file_id p.1 p.2
        if en.has_c || decide (0 < en.c_cnt) || decide (0 < en.e_cnt) then some en
        else none))).flatten)

/-- Line 219: `if c_cnt > e_cnt or direction == 'forward': causes.append(entry)`. -/
def causesOf (files : List FileData) : List Candidate :=
  (candidateEntries files).filter
    (fun en => decide (en.c_cnt > en.e_cnt) || decide (en.dir = CrossDoc.CDir.forward))

/-- Line 221: `if e_cnt > c_cnt or direction == 'reverse' or has_c: effects.append(entry)`. -/
def effectsOf (files : List FileData) : List Candidate :=
  (candidateEntries files).filter
    (fun en => decide (en.e_cnt > en.c_cnt) || decide (en.dir = CrossDoc.CDir.reverse) || en.has_c)

/-- The dedup key of line 242: `(cause.file, cause.line, effect.file, effect.line)`. -/
abbrev MKey := String × Nat × String × Nat

open Classical in
/-- The inner matching loop of `find_relationships` (lines 236-258) for one
cause candidate: skip same-file effects, skip pairs without entity overlap,
skip already-seen keys, otherwise record the key and validate; returns the
accepted records and the final `seen` set. -/
noncomputable def matchEffects (idf : List (List Char × ℝ)) (min_conf : ℝ)
    (cause : Candidate) :
    List Candidate → List MKey → List RelRecord × List MKey
  | [], seen => ([], seen)
  | eff :: rest, seen =>
    if eff.file = cause.file then matchEffects idf min_conf cause rest seen
    else if (cause.entities ∩ eff.entities) = ∅ then matchEffects idf min_conf cause rest seen
    else
      let key : MKey := (cause.file, cause.line, eff.file, eff.line)
      if key ∈ seen then matchEffects idf min_conf cause rest seen
      else
        let res := validate idf min_conf cause.text eff.text cause.file eff.file
        let next := matchEffects idf min_conf cause rest (key :: seen)
        if res.valid then
          ({ cause_file := cause.file, cause_text := cause.text,
             effect_file := eff.file, effect_text := eff.text,
             confidence := CrossDoc.pyRound res.score 3 } :: next.1, next.2)
        else next

/-- The outer matching loop of `find_relationships` (lines 232-258). -/
noncomputable def matchAll (idf : List (List Char × ℝ)) (min_conf : ℝ) :
    List Candidate → List Candidate → List MKey → List RelRecord × List MKey
  | [], _, seen => ([], seen)
  | c :: cs, effects, seen =>
    let one := matchEffects idf min_conf c effects seen
    let rest := matchAll idf min_conf cs effects one.2
    (one.1 ++ rest.1, rest.2)

/-- `CauseEffectDetector.find_relationships` (lines 192-261): build the IDF
table from all sentences, index candidates, and run the quadratic matching
loop (the progress prints and rejection counters are I/O only). -/
noncomputable def find_relationships (min_conf : ℝ) (files : List FileData) :
    List RelRecord :=
  let sentences := (files.map (fun f => f.sentences)).flatten
  let idf := CrossDoc.build_idf sentences
  (matchAll idf min_conf (causesOf files) (effectsOf files) []).1

/-- The key bookkeeping of the inner loop in isolation: identical to
`matchEffects` with the validation call dropped (the `seen` set never
depends on validation results). -/
def keysEffects (cause : Candidate) : List Candidate → List MKey → List MKey
  | [], seen => seen
  | eff :: rest, seen =>
    if eff.file = cause.file then keysEffects cause rest seen
    else if (cause.entities ∩ eff.entities) = ∅ then keysEffects cause rest seen
    else
      let key : MKey := (cause.file, cause.line, eff.file, eff.line)
      if key ∈ seen then keysEffects cause rest seen
      else keysEffects cause rest (key :: seen)

def keysAll : List Candidate → List Candidate → List MKey → List MKey
  | [], _, seen => seen
  | c :: cs, effects, seen => keysAll cs effects (keysEffects c effects seen)

/-- The keys submitted to `validate` over a whole run of
`find_relationships` (every key reaching line 245 is validated on line 247,
exactly once). -/
def submittedKeys (files : List FileData) : List MKey :=
  keysAll (causesOf files) (effectsOf files) []

end RB

/-! ## The hybrid module: `src/src/extract_ml.py`, `HybridCauseEffect`.
`tokenize`, `build_idf`, `tfidf` and `cosine` are character-identical to the
rule-based module and shared from the `CrossDoc` root namespace. -/

namespace ML

/-- `self.causal_phrases['forward']` of the hybrid module: the same patterns
as the rule-based module minus the `when…then` pattern; the optional group of
the `because` pattern is expanded as in `RB.fwdPats`. -/
def fwdPats : List (List CrossDoc.RE) :=
  [ [.bnd, .alts [("caused").data, ("led to").data, ("resulted in").data,
      ("triggered").data, ("sparked").data, ("brought about").data], .bnd],
    [.bnd, .alts [("consequently").data, ("therefore").data, ("thus").data,
      ("hence").data, ("as a result").data], .bnd],
    [.bnd, .alts [("in response to").data, ("following").data, ("after the").data,
      ("due to the").data], .bnd],
    [.bnd, .lit ("because").data, .ws1, .lit ("of").data, .ws1,
      .alts [("the").data, ("this").data, ("their").data, ("our").data,
      ("his").data, ("her").data], .bnd],
    [.bnd, .lit ("because").data, .ws1,
      .alts [("the").data, ("this").data, ("their").data, ("our").data,
      ("his").data, ("her").data], .bnd] ]

/-- `self.causal_phrases['reverse']` (same as the rule-based module). -/
def revPats : List (List CrossDoc.RE) :=
  [ [.bnd, .alts [("because").data, ("due to").data, ("owing to").data,
      ("on account of").data], .bnd],
    [.bnd, .alts [("as a result of").data, ("in consequence of").data], .bnd],
    [.bnd, .alts [("was caused by").data, ("resulted from").data], .bnd] ]

/-- `self.important_events` of the hybrid module. -/
def important_events : List (List Char) :=
  [("somme").data, ("verdun").data, ("ypres").data, ("passchendaele").data,
   ("marne").data, ("gallipoli").data, ("dardanelles").data, ("jutland").data,
   ("arras").data, ("cambrai").data, ("vimy").data, ("amiens").data,
   ("france").data, ("belgium").data, ("flanders").data, ("picardy").data,
   ("alsace").data, ("lorraine").data, ("serbia").data, ("mesopotamia").data,
   ("palestine").data, ("sinai").data, ("egypt").data, ("battalion").data,
   ("brigade").data, ("division").data, ("regiment").data, ("corps").data,
   ("army").data, ("artillery").data, ("infantry").data, ("cavalry").data,
   ("australian").data, ("british").data, ("french").data, ("german").data,
   ("turkish").data, ("anzac").data]

/-- `self.excluded` of the hybrid module. -/
def excluded : List (List Char) :=
  [("battle").data, ("war").data, ("fight").data, ("attack").data,
   ("front").data, ("line").data, ("trench").data, ("soldier").data,
   ("officer").data, ("men").data, ("man").data, ("enemy").data,
   ("troops").data, ("forces").data]

/-- `self.cause_words` of the hybrid module. -/
def cause_words : List (List Char) :=
  [("bombardment").data, ("shelling").data, ("offensive").data,
   ("assault").data, ("raid").data, ("advance").data, ("barrage").data,
   ("explosion").data, ("attack").data]

/-- `self.effect_words` of the hybrid module. -/
def effect_words : List (List Char) :=
  [("casualties").data, ("losses").data, ("killed").data, ("wounded").data,
   ("destroyed").data, ("captured").data, ("retreated").data,
   ("surrendered").data]

/-- `HybridCauseEffect.has_causal`. -/
def has_causal (text : List Char) : Bool × CrossDoc.CDir :=
  let tl := text.map Char.toLower
  if fwdPats.any (fun p => CrossDoc.reSearch tl p) then (true, .forward)
  else if revPats.any (fun p => CrossDoc.reSearch tl p) then (true, .reverse)
  else (false, .non)

/-- `HybridCauseEffect.get_entities`: gazetteer substrings plus capitalised
words not in the stop set (no date or unit-number extraction here). -/
def get_entities (text : List Char) : Finset (List Char) :=
  let tl := text.map Char.toLower
  let gaz := important_events.filter (fun ev => CrossDoc.substrB ev tl)
  let caps := ((CrossDoc.capHits text).map (fun m => m.map Char.toLower)).filter
    (fun m => !(excluded.any (fun x => x == m)))
  (gaz ++ caps).toFinset

def count_indicators (text : List Char) (ws : List (List Char)) : Nat :=
  (ws.filter (fun w => CrossDoc.substrB w (text.map Char.toLower))).length

open Classical in
/-- `HybridCauseEffect.rule_score` (lines 107-133): the rejection cascade,
then the base-0.4 additive score; the second component is the shared entity
set on success (`list(shared)`) or the rejection message string. -/
noncomputable def rule_score (idf : List (List Char × ℝ))
    (cause_txt effect_txt : List Char) (cause_file effect_file : String) :
    ℝ × (Finset (List Char) ⊕ String) :=
  if cause_file = effect_file then (0, .inr ("same file"))
  else if cause_txt.length < 50 ∨ effect_txt.length < 50 then (0, .inr ("too short"))
  else
    let c_has := (has_causal cause_txt).1
    let e_has := (has_causal effect_txt).1
    if c_has = false ∧ e_has = false then (0, .inr ("no causal language"))
    else
      let sim := CrossDoc.cosine (CrossDoc.tfidf idf cause_txt) (CrossDoc.tfidf idf effect_txt)
      if sim < 0.15 then (0, .inr ("too different"))
      else if sim > 0.65 then (0, .inr ("too similar"))
      else
        let shared := get_entities cause_txt ∩ get_entities effect_txt
        if shared.card < 2 then (0, .inr ("no shared context"))
        else
          let score : ℝ := 0.4 + (if c_has then 0.2 else 0) + (if e_has then 0.15 else 0)
            + min 0.15 ((shared.card : ℝ) * 0.05)
            + (if 0 < count_indicators cause_txt cause_words then 0.05 else 0)
            + (if 0 < count_indicators effect_txt effect_words then 0.05 else 0)
          (score, .inl shared)

/-- The external zero-shot-classification oracle (`self.nli`): given a text
and candidate labels it returns label/score pairs, or fails — the
`transformers` pipeline call can raise. -/
def Oracle : Type :=
  List Char → List (List Char) → Except String (List (List Char × ℝ))

/-- `HybridCauseEffect.ml_score` (lines 135-140): build the composite prompt,
query the oracle with the two fixed labels, read the score of the
`'causal relationship'` label.  An oracle failure propagates (the source has
no exception handler here). -/
noncomputable def ml_score (oracle : Oracle) (cause effect : List Char) :
    Except String ℝ := do
  let res ← oracle
    (cause.take 150 ++ (". As a result, ").data ++ effect.take 120)
    [("causal relationship").data, ("unrelated").data]
  match res.find? (fun p => p.1 == ("causal relationship").data) with
  | some p => Except.ok p.2
  | none => Except.error ("label missing")

/-- One output record of `find_pairs`; `ml_score`/`combined_score` are absent
until the ML pass fills them in. -/
structure MLRec where
  cause_file : String
  cause_text : List Char
  effect_file : String
  effect_text : List Char
  rule_score : ℝ
  shared_context : List (List Char)
  mls : Option ℝ
  combined_score : Option ℝ

/-- The ML-scoring pass of `find_pairs` (lines 199-204): annotate every
accepted record with `ml_score` and `combined_score`.  As in the source
there is no exception handling: an oracle failure on any record aborts the
whole pass. -/
noncomputable def addMlScores (oracle : Oracle) :
    List MLRec → Except String (List MLRec)
  | [] => Except.ok []
  | r :: rest => do
    let m ← ml_score oracle r.cause_text r.effect_text
    let rest2 ← addMlScores oracle rest
    let r2 : MLRec := { r with
      mls := some (CrossDoc.pyRound m 4),
      combined_score := some (CrossDoc.pyRound ((r.rule_score + CrossDoc.pyRound m 4) / 2) 4) }
    Except.ok (r2 :: rest2)

end ML

/-! ## Specification-side definitions (transcribed from `spec.md`, for
comparison with the source-side functions above) -/

namespace Spec

open Classical in
/-- The additive score of §4.5 of the spec, stated in the spec's own terms:
+0.30 for causal language on the cause side, +0.25 on the effect side, the
similarity-band bonus (+0.20 on [0.25,0.50], +0.10 on [0.15,0.25)),
+min(0.25, 0.08·sharedEntityCount), +0.10 per indicator-word side. -/
noncomputable def specScore (idf : List (List Char × ℝ)) (c e : List Char) : ℝ :=
  (if (RB.has_causal c).1 then 0.30 else 0)
  + (if (RB.has_causal e).1 then 0.25 else 0)
  + (if 0.25 ≤ CrossDoc.cosine (CrossDoc.tfidf idf c) (CrossDoc.tfidf idf e) ∧
        CrossDoc.cosine (CrossDoc.tfidf idf c) (CrossDoc.tfidf idf e) ≤ 0.50 then 0.20
     else if 0.15 ≤ CrossDoc.cosine (CrossDoc.tfidf idf c) (CrossDoc.tfidf idf e) ∧
        CrossDoc.cosine (CrossDoc.tfidf idf c) (CrossDoc.tfidf idf e) < 0.25 then 0.10 else 0)
  + min 0.25 (((RB.get_entities c ∩ RB.get_entities e).card : ℝ) * 0.08)
  + (if 0 < RB.count_indicators c RB.cause_words then 0.10 else 0)
  + (if 0 < RB.count_indicators e RB.effect_words then 0.10 else 0)

open Classical in
/-- The ordered rejection cascade claimed in §4.5 of the spec: same-document,
too-short, no-causal-language, similarity out of band, too few shared
entities; the first failing check gives the reason. -/
noncomputable def specRejection (idf : List (List Char × ℝ))
    (cause_txt effect_txt : List Char) (cause_file effect_file : String) :
    Option RB.Rej :=
  if cause_file = effect_file then some .sameFile
  else if cause_txt.length < 50 ∨ effect_txt.length < 50 then some .tooShort
  else if (RB.has_causal cause_txt).1 = false ∧ (RB.has_causal effect_txt).1 = false then
    some .noCausal
  else if CrossDoc.cosine (CrossDoc.tfidf idf cause_txt) (CrossDoc.tfidf idf effect_txt) < 0.15 then
    some .lowSim
  else if CrossDoc.cosine (CrossDoc.tfidf idf cause_txt) (CrossDoc.tfidf idf effect_txt) > 0.65 then
    some .tooSim
  else if (RB.get_entities cause_txt ∩ RB.get_entities effect_txt).card < 2 then
    some .fewShared
  else none

/-- The effect-leaning membership rule as the claim states it: the rule
symmetric to the cause-leaning one, with no extra disjunct. -/
def specEffectLeaning (en : RB.Candidate) : Prop :=
  en.e_cnt > en.c_cnt ∨ en.dir = CrossDoc.CDir.reverse

/-- The unordered projection of a dedup key: the set of its two
(document, sentence-position) sides. -/
def unordKey (k : RB.MKey) : Finset (String × Nat) :=
  {(k.1, k.2.1), (k.2.2.1, k.2.2.2)}

/-- The claim's dedup property: over one run, no two distinct submitted keys
describe the same unordered pair of candidate sentences. -/
def submittedOncePerUnordered (files : List RB.FileData) : Prop :=
  ∀ k1 ∈ RB.submittedKeys files, ∀ k2 ∈ RB.submittedKeys files,
    unordKey k1 = unordKey k2 → k1 = k2

end Spec

/-! ## Concrete corpora used as witnesses and counterexamples.

The four `gold` sentences are built so that every token of `goldA`/`goldB`
occurs in exactly 2 of the 4 corpus sentences (so all IDF weights equal
`log (4/3)`), each token occurs once in its sentence, the two sides share
exactly the 4 gazetteer tokens, and each side has 12 tokens — making the
cosine similarity exactly 4/12 = 1/3. -/

def goldA : List Char :=
  ("caused bombardment ypres somme verdun anzac morning gully slope mist dust mud").data

def goldB : List Char :=
  ("resulted from casualties ypres somme verdun anzac creek ravine night fog rain").data

def goldP : List Char :=
  ("caused bombardment morning gully slope mist dust mud").data

def goldQ : List Char :=
  ("resulted from casualties creek ravine night fog rain").data

def goldSentences : List (List Char) := [goldA, goldB, goldP, goldQ]

noncomputable def goldIdf : List (List Char × ℝ) := build_idf goldSentences

def goldFiles : List RB.FileData :=
  [⟨"fileA", [goldA]⟩, ⟨"fileB", [goldB]⟩, ⟨"fileP", [goldP]⟩, ⟨"fileQ", [goldQ]⟩]

/-- Two sentences with forward causal language in different documents:
each is both cause-leaning and effect-leaning, so the matching loop submits
the same unordered pair once in each direction. -/
def ex2X : List Char :=
  ("sparked offensive ypres somme verdun anzac morning gully slope mist dust mud").data

def ex2Y : List Char :=
  ("triggered assault ypres somme verdun anzac creek ravine night fog rain").data

def ex2Files : List RB.FileData := [⟨"doc1", [ex2X]⟩, ⟨"doc2", [ex2Y]⟩]

/-- An accepted relationship record awaiting ML scoring. -/
noncomputable def sampleMLRec : ML.MLRec :=
  { cause_file := "fileA", cause_text := goldA, effect_file := "fileB",
    effect_text := goldB, rule_score := 0.9, shared_context := [],
    mls := none, combined_score := none }

/-- An oracle whose underlying model call raises on every input. -/
def downOracle : ML.Oracle := fun _ _ => Except.error ("oracle unavailable")

/-! ## Helper lemmas -/

lemma listFind_beq (l : List (List Char)) (w : List Char) :
    l.find? (fun x => x == w) = if w ∈ l then some w else none := by
  induction l with
  | nil => simp
  | cons a as ih =>
    rcases eq_or_ne a w with h | h
    · subst h
      simp [List.find?_cons]
    · rw [List.find?_cons]
      have hb : (a == w) = false := by simpa using h
      rw [hb]
      simp only [List.mem_cons]
      rw [ih]
      by_cases hw : w ∈ as
      · rw [if_pos hw, if_pos (Or.inr hw)]
      · rw [if_neg hw, if_neg (by rintro (rfl | hmem) <;> [exact h rfl; exact hw hmem])]

lemma mem_corpusWords (docs : List (List Char)) (w : List Char) :
    w ∈ corpusWords docs ↔ 0 < dfCount docs w := by
  unfold corpusWords dfCount
  rw [List.mem_dedup, List.mem_flatten]
  constructor
  · rintro ⟨l, hl, hw⟩
    rcases List.mem_map.1 hl with ⟨d, hd, rfl⟩
    rw [List.length_pos]
    intro hnil
    rw [List.filter_eq_nil_iff] at hnil
    exact hnil d hd (by simpa using List.mem_dedup.1 hw)
  · intro hpos
    rw [List.length_pos] at hpos
    rcases List.exists_mem_of_ne_nil _ hpos with ⟨d, hd⟩
    rcases List.mem_filter.1 hd with ⟨hdocs, hany⟩
    refine ⟨(tokenize d).dedup, List.mem_map_of_mem _ hdocs, ?_⟩
    rw [List.mem_dedup]
    simpa using hany

lemma dictGet_build_idf (docs : List (List Char)) (w : List Char) :
    dictGet (build_idf docs) w =
      if 0 < dfCount docs w then
        Real.log ((docs.length : ℝ) / (1 + (dfCount docs w : ℝ)))
      else 0 := by
  unfold dictGet build_idf
  rw [List.find?_map]
  have hc : ((fun p : List Char × ℝ => p.1 == w) ∘
      (fun x => (x, Real.log ((docs.length : ℝ) / (1 + (dfCount docs x : ℝ)))))) =
      (fun x => x == w) := rfl
  rw [hc, listFind_beq]
  by_cases hw : w ∈ corpusWords docs
  · rw [if_pos hw, if_pos ((mem_corpusWords docs w).1 hw)]
    rfl
  · rw [if_neg hw, if_neg (fun hpos => hw ((mem_corpusWords docs w).2 hpos))]
    rfl

lemma foldr_max_replicate_one (n : ℕ) (h : 0 < n) :
    (List.replicate n (1 : ℕ)).foldr max 0 = 1 := by
  induction n with
  | zero => exact absurd h (by simp)
  | succ k ih =>
    rw [List.replicate_succ, List.foldr_cons]
    rcases Nat.eq_zero_or_pos k with h0 | hk
    · subst h0; simp
    · rw [ih hk]
      exact max_self 1

lemma count_one_of_nodup {α : Type _} [BEq α] [LawfulBEq α] {l : List α} {w : α}
    (h : l.Nodup) (hw : w ∈ l) : l.count w = 1 := by
  induction l with
  | nil => cases hw
  | cons a as ih =>
    rw [List.count_cons]
    rcases List.mem_cons.1 hw with rfl | hmem
    · have hz : as.count w = 0 :=
        List.count_eq_zero.2 (fun hc => (List.nodup_cons.1 h).1 hc)
      simp [hz]
    · have hne : ¬ (a == w) = true := by
        intro hb
        apply (List.nodup_cons.1 h).1
        rw [eq_of_beq hb]
        exact hmem
      rw [ih (List.nodup_cons.1 h).2 hmem, if_neg hne]

/-- On a sentence whose token list has no repeats, every term frequency is 1,
so the vector is just the IDF weight at each token. -/
lemma tfidf_of_nodup (idf : List (List Char × ℝ)) (text : List Char)
    (h : (tokenize text).Nodup) (h0 : tokenize text ≠ []) :
    tfidf idf text = (tokenize text).map (fun w => (w, dictGet idf w)) := by
  unfold tfidf
  rw [if_neg (by simpa [List.isEmpty_iff] using h0)]
  simp only [List.dedup_eq_self.2 h]
  have hcnt : ∀ w ∈ tokenize text, (tokenize text).count w = 1 := fun w hw =>
    count_one_of_nodup h hw
  have hmx : ((tokenize text).map (fun w => (tokenize text).count w)).foldr max 0 = 1 := by
    rw [List.map_congr_left (g := Function.const _ 1) (fun a ha => hcnt a ha),
      List.map_const]
    exact foldr_max_replicate_one _ (by simpa [List.length_pos] using h0)
  rw [hmx]
  refine List.map_congr_left (fun w hw => ?_)
  rw [hcnt w hw]
  norm_num

lemma dictGet_const_map (K : List (List Char)) (a : ℝ) (w : List Char)
    (hw : w ∈ K) :
    dictGet (K.map (fun k => (k, a))) w = a := by
  unfold dictGet
  rw [List.find?_map]
  have hc : ((fun p : List Char × ℝ => p.1 == w) ∘ (fun k => (k, a))) =
      (fun x => x == w) := rfl
  rw [hc, listFind_beq, if_pos hw]
  rfl

lemma any_fst_beq (KB : List (List Char)) (a : ℝ) (k : List Char) :
    ((KB.map (fun x => (x, a))).any (fun q => q.1 == k)) = KB.any (fun x => x == k) := by
  induction KB with
  | nil => rfl
  | cons b bs ihb =>
    simp only [List.map_cons, List.any_cons]
    exact congrArg (fun x => ((b == k) || x)) ihb

/-- Cosine of two vectors that are constant with the same value `a > 0` on
key lists `KA`, `KB`: the dot product is (number of common keys)·a², each
magnitude is √(length·a²). -/
lemma cosine_const (KA KB : List (List Char)) (a : ℝ) (ha : 0 < a)
    (hA : KA ≠ []) (hB : KB ≠ []) :
    cosine (KA.map (fun k => (k, a))) (KB.map (fun k => (k, a))) =
      ((KA.filter (fun k => KB.any (fun x => x == k))).length : ℝ) * (a * a) /
        (Real.sqrt ((KA.length : ℝ) * a ^ 2) * Real.sqrt ((KB.length : ℝ) * a ^ 2)) := by
  unfold cosine
  rw [if_neg (by simp [List.isEmpty_iff, hA, hB])]
  have hfil : (KA.map (fun k => (k, a))).filter
      (fun p => (KB.map (fun k => (k, a))).any (fun q => q.1 == p.1)) =
      (KA.filter (fun k => KB.any (fun x => x == k))).map (fun k => (k, a)) := by
    rw [List.filter_map]
    exact congrArg _ (List.filter_congr (fun k _ => any_fst_beq KB a k))
  rw [hfil]
  have hdot : ((KA.filter (fun k => KB.any (fun x => x == k))).map (fun k => (k, a))).map
      (fun p => p.2 * dictGet (KB.map (fun k => (k, a))) p.1) =
      List.replicate (KA.filter (fun k => KB.any (fun x => x == k))).length (a * a) := by
    rw [List.map_map]
    have hpt : ∀ k ∈ KA.filter (fun k => KB.any (fun x => x == k)),
        ((fun p : List Char × ℝ => p.2 * dictGet (KB.map (fun k => (k, a))) p.1) ∘
          (fun k => (k, a))) k = Function.const (List Char) (a * a) k := by
      intro k hk
      have hkB : k ∈ KB := by
        simpa [List.any_eq_true] using (List.mem_filter.1 hk).2
      show a * dictGet (KB.map (fun x => (x, a))) k = a * a
      rw [dictGet_const_map KB a k hkB]
    rw [List.map_congr_left hpt, List.map_const]
  have hconst : ((fun p : List Char × ℝ => p.2 ^ 2) ∘ fun k => (k, a)) =
      Function.const (List Char) (a ^ 2) := rfl
  have hm1 : ((KA.map (fun k => (k, a))).map (fun p => p.2 ^ 2)).sum =
      (KA.length : ℝ) * a ^ 2 := by
    rw [List.map_map, hconst, List.map_const, List.sum_replicate, nsmul_eq_mul]
  have hm2 : ((KB.map (fun k => (k, a))).map (fun p => p.2 ^ 2)).sum =
      (KB.length : ℝ) * a ^ 2 := by
    rw [List.map_map, hconst, List.map_const, List.sum_replicate, nsmul_eq_mul]
  rw [hdot, hm1, hm2, List.sum_replicate, nsmul_eq_mul]
  have hposA : (0 : ℝ) < (KA.length : ℝ) * a ^ 2 := by
    apply mul_pos _ (pow_pos ha 2)
    exact_mod_cast List.length_pos.2 hA
  have hposB : (0 : ℝ) < (KB.length : ℝ) * a ^ 2 := by
    apply mul_pos _ (pow_pos ha 2)
    exact_mod_cast List.length_pos.2 hB
  rw [if_pos ⟨Real.sqrt_pos.2 hposA, Real.sqrt_pos.2 hposB⟩]

lemma gold_df : ∀ w ∈ tokenize goldA ++ tokenize goldB,
    dfCount goldSentences w = 2 := by decide

lemma gold_dictGet (w : List Char) (hw : w ∈ tokenize goldA ++ tokenize goldB) :
    dictGet goldIdf w = Real.log ((4 : ℝ) / 3) := by
  show dictGet (build_idf goldSentences) w = _
  rw [dictGet_build_idf, gold_df w hw]
  rw [if_pos (by norm_num)]
  have hlen : goldSentences.length = 4 := rfl
  rw [hlen]
  norm_num

lemma gold_tfidf_A : tfidf goldIdf goldA =
    (tokenize goldA).map (fun w => (w, Real.log ((4 : ℝ) / 3))) := by
  rw [tfidf_of_nodup goldIdf goldA (by decide) (by decide)]
  exact List.map_congr_left (fun w hw => by
    rw [gold_dictGet w (List.mem_append_left _ hw)])

lemma gold_tfidf_B : tfidf goldIdf goldB =
    (tokenize goldB).map (fun w => (w, Real.log ((4 : ℝ) / 3))) := by
  rw [tfidf_of_nodup goldIdf goldB (by decide) (by decide)]
  exact List.map_congr_left (fun w hw => by
    rw [gold_dictGet w (List.mem_append_right _ hw)])

/-- On the gold corpus the two sides share exactly 4 of their 12 equal-weight
tokens, so the cosine similarity is exactly 1/3. -/
lemma gold_sim : cosine (tfidf goldIdf goldA) (tfidf goldIdf goldB) = 1 / 3 := by
  rw [gold_tfidf_A, gold_tfidf_B]
  rw [cosine_const _ _ _ (Real.log_pos (by norm_num)) (by decide) (by decide)]
  have hc : ((tokenize goldA).filter
      (fun k => (tokenize goldB).any (fun x => x == k))).length = 4 := by decide
  have hA : (tokenize goldA).length = 12 := by decide
  have hB : (tokenize goldB).length = 12 := by decide
  rw [hc, hA, hB]
  have hα0 : 0 < Real.log ((4 : ℝ) / 3) := Real.log_pos (by norm_num)
  have hs : Real.sqrt ((12 : ℕ) * Real.log ((4 : ℝ) / 3) ^ 2) *
      Real.sqrt ((12 : ℕ) * Real.log ((4 : ℝ) / 3) ^ 2) =
      (12 : ℕ) * Real.log ((4 : ℝ) / 3) ^ 2 :=
    Real.mul_self_sqrt (by positivity)
  rw [hs]
  have hne : Real.log ((4 : ℝ) / 3) ≠ 0 := ne_of_gt hα0
  push_cast
  field_simp
  ring

/-- Full evaluation of the rule-based validator on the gold pair: the
uncapped score is 1.20 (= 0.30 + 0.25 + 0.20 + 0.25 + 0.10 + 0.10), the
returned score is capped to 1, and the pair is accepted exactly when the
threshold is at most 1.20. -/
lemma gold_validate (t : ℝ) :
    (RB.validate goldIdf t goldA goldB "fileA" "fileB").score = 1 ∧
    ((RB.validate goldIdf t goldA goldB "fileA" "fileB").valid ↔ t ≤ 1.20) := by
  have hcA : (RB.has_causal goldA).1 = true := by decide
  have hcB : (RB.has_causal goldB).1 = true := by decide
  have hsh : (RB.get_entities goldA ∩ RB.get_entities goldB).card = 4 := by decide
  have hiA : 0 < RB.count_indicators goldA RB.cause_words := by decide
  have hiB : 0 < RB.count_indicators goldB RB.effect_words := by decide
  simp only [RB.validate]
  rw [if_neg (show ¬("fileA" = "fileB") by decide)]
  rw [if_neg (show ¬(goldA.length < 50 ∨ goldB.length < 50) by decide)]
  rw [hcA, hcB]
  rw [if_neg (show ¬(true = false ∧ true = false) by simp)]
  rw [gold_sim]
  rw [if_neg (show ¬((1 : ℝ) / 3 < 0.15) by norm_num)]
  rw [if_neg (show ¬((1 : ℝ) / 3 > 0.65) by norm_num)]
  rw [if_pos (show (0.25 ≤ (1 : ℝ) / 3 ∧ (1 : ℝ) / 3 ≤ 0.50) by norm_num)]
  rw [hsh]
  rw [if_neg (show ¬(4 < 2) by norm_num)]
  rw [if_pos hiA, if_pos hiB]
  have hmin : min (0.25 : ℝ) ((4 : ℕ) * 0.08) = 0.25 := by
    rw [min_eq_left]
    push_cast
    norm_num
  rw [if_pos rfl, if_pos rfl, hmin]
  refine ⟨?_, ?_⟩
  · show min (0.30 + 0.25 + 0.20 + 0.25 + 0.10 + 0.10 : ℝ) 1 = 1
    rw [min_eq_right (by norm_num)]
  · show (t ≤ (0.30 + 0.25 + 0.20 + 0.25 + 0.10 + 0.10 : ℝ)) ↔ t ≤ 1.20
    norm_num

/-- Full evaluation of the hybrid module's rule score on the gold pair:
0.4 + 0.2 + 0.15 + 0.15 + 0.05 + 0.05 = 1. -/
lemma gold_rule : (ML.rule_score goldIdf goldA goldB "fileA" "fileB").1 = 1 := by
  have hcA : (ML.has_causal goldA).1 = true := by decide
  have hcB : (ML.has_causal goldB).1 = true := by decide
  have hsh : (ML.get_entities goldA ∩ ML.get_entities goldB).card = 4 := by decide
  have hiA : 0 < ML.count_indicators goldA ML.cause_words := by decide
  have hiB : 0 < ML.count_indicators goldB ML.effect_words := by decide
  simp only [ML.rule_score]
  rw [if_neg (show ¬("fileA" = "fileB") by decide)]
  rw [if_neg (show ¬(goldA.length < 50 ∨ goldB.length < 50) by decide)]
  rw [hcA, hcB]
  rw [if_neg (show ¬(true = false ∧ true = false) by simp)]
  rw [gold_sim]
  rw [if_neg (show ¬((1 : ℝ) / 3 < 0.15) by norm_num)]
  rw [if_neg (show ¬((1 : ℝ) / 3 > 0.65) by norm_num)]
  rw [hsh]
  rw [if_neg (show ¬(4 < 2) by norm_num)]
  rw [if_pos hiA, if_pos hiB]
  have hmin : min (0.15 : ℝ) ((4 : ℕ) * 0.05) = 0.15 := by
    rw [min_eq_left]
    push_cast
    norm_num
  rw [if_pos rfl, if_pos rfl, hmin]
  show (0.4 + 0.2 + 0.15 + 0.15 + 0.05 + 0.05 : ℝ) = 1
  norm_num

lemma matchEffects_ne (idf : List (List Char × ℝ)) (t : ℝ) (cause : RB.Candidate) :
    ∀ (effs : List RB.Candidate) (seen : List RB.MKey),
      ∀ r ∈ (RB.matchEffects idf t cause effs seen).1,
        r.cause_file ≠ r.effect_file := by
  intro effs
  induction effs with
  | nil =>
    intro seen r hr
    simp [RB.matchEffects] at hr
  | cons eff rest ih =>
    intro seen r hr
    simp only [RB.matchEffects] at hr
    split_ifs at hr with h1 h2 h3 h4
    · exact ih seen r hr
    · exact ih seen r hr
    · exact ih seen r hr
    · rcases List.mem_cons.1 hr with rfl | hmem
      · exact fun he => h1 he.symm
      · exact ih _ r hmem
    · exact ih _ r hr

lemma matchAll_ne (idf : List (List Char × ℝ)) (t : ℝ) :
    ∀ (cs effects : List RB.Candidate) (seen : List RB.MKey),
      ∀ r ∈ (RB.matchAll idf t cs effects seen).1,
        r.cause_file ≠ r.effect_file := by
  intro cs
  induction cs with
  | nil =>
    intro effects seen r hr
    simp [RB.matchAll] at hr
  | cons c rest ih =>
    intro effects seen r hr
    simp only [RB.matchAll] at hr
    rcases List.mem_append.1 hr with hm | hm
    · exact matchEffects_ne idf t c effects seen r hm
    · exact ih effects _ r hm

/-- The `seen` set returned by the inner matching loop never depends on
validation outcomes: it is exactly the key bookkeeping. -/
lemma matchEffects_snd (idf : List (List Char × ℝ)) (t : ℝ) (cause : RB.Candidate) :
    ∀ (effs : List RB.Candidate) (seen : List RB.MKey),
      (RB.matchEffects idf t cause effs seen).2 = RB.keysEffects cause effs seen := by
  intro effs
  induction effs with
  | nil => intro seen; rfl
  | cons eff rest ih =>
    intro seen
    simp only [RB.matchEffects, RB.keysEffects]
    split_ifs with h1 h2 h3 h4
    · exact ih seen
    · exact ih seen
    · exact ih seen
    · exact ih _
    · exact ih _

lemma matchAll_snd (idf : List (List Char × ℝ)) (t : ℝ) :
    ∀ (cs effects : List RB.Candidate) (seen : List RB.MKey),
      (RB.matchAll idf t cs effects seen).2 = RB.keysAll cs effects seen := by
  intro cs
  induction cs with
  | nil => intro effects seen; rfl
  | cons c rest ih =>
    intro effects seen
    simp only [RB.matchAll, RB.keysAll]
    rw [matchEffects_snd idf t c effects seen]
    exact ih effects _

lemma keysEffects_nodup (cause : RB.Candidate) :
    ∀ (effs : List RB.Candidate) (seen : List RB.MKey),
      seen.Nodup → (RB.keysEffects cause effs seen).Nodup := by
  intro effs
  induction effs with
  | nil => intro seen h; exact h
  | cons eff rest ih =>
    intro seen h
    simp only [RB.keysEffects]
    split_ifs with h1 h2 h3
    · exact ih seen h
    · exact ih seen h
    · exact ih seen h
    · exact ih _ (List.nodup_cons.2 ⟨h3, h⟩)

lemma keysAll_nodup :
    ∀ (cs effects : List RB.Candidate) (seen : List RB.MKey),
      seen.Nodup → (RB.keysAll cs effects seen).Nodup := by
  intro cs
  induction cs with
  | nil => intro effects seen h; exact h
  | cons c rest ih =>
    intro effects seen h
    simp only [RB.keysAll]
    exact ih effects _ (keysEffects_nodup c effects seen h)

/-- Full characterization of `validate` as the spec's ordered cascade
followed by threshold comparison on the spec's additive score. -/
lemma validate_cascade (idf : List (List Char × ℝ)) (t : ℝ) (c e : List Char)
    (cf ef : String) :
    RB.validate idf t c e cf ef =
      (match Spec.specRejection idf c e cf ef with
       | some r => ⟨False, 0, some r⟩
       | none => ⟨t ≤ Spec.specScore idf c e, min (Spec.specScore idf c e) 1,
           if t ≤ Spec.specScore idf c e then none else some RB.Rej.belowThresh⟩) := by
  simp only [RB.validate, Spec.specRejection, Spec.specScore]
  by_cases h1 : cf = ef
  · rw [if_pos h1, if_pos h1]
  · rw [if_neg h1, if_neg h1]
    by_cases h2 : c.length < 50 ∨ e.length < 50
    · rw [if_pos h2, if_pos h2]
    · rw [if_neg h2, if_neg h2]
      by_cases h3 : (RB.has_causal c).1 = false ∧ (RB.has_causal e).1 = false
      · rw [if_pos h3, if_pos h3]
      · rw [if_neg h3, if_neg h3]
        by_cases h4 : cosine (tfidf idf c) (tfidf idf e) < 0.15
        · rw [if_pos h4, if_pos h4]
        · rw [if_neg h4, if_neg h4]
          by_cases h5 : cosine (tfidf idf c) (tfidf idf e) > 0.65
          · rw [if_pos h5, if_pos h5]
          · rw [if_neg h5, if_neg h5]
            by_cases h6 : (RB.get_entities c ∩ RB.get_entities e).card < 2
            · rw [if_pos h6, if_pos h6]
            · rw [if_neg h6, if_neg h6]

/-! ## Claim theorems -/

/-- C4: for every corpus and threshold, no relationship in the output of
`find_relationships` has its cause document id equal to its effect document
id: the output list contains no same-document record. -/
theorem C4_no_same_document_pair (t : ℝ) (files : List RB.FileData) :
    (RB.find_relationships t files).filter
      (fun r => r.cause_file == r.effect_file) = [] := by
  rw [List.filter_eq_nil_iff]
  intro r hr
  have hne : r.cause_file ≠ r.effect_file := by
    have hr2 : r ∈ (RB.matchAll
        (build_idf ((files.map (fun f => f.sentences)).flatten)) t
        (RB.causesOf files) (RB.effectsOf files) []).1 := hr
    exact matchAll_ne _ t _ _ _ r hr2
  simp only [beq_iff_eq]
  exact fun hb => hne hb

/-- C5: the hybrid module's ML-scoring pass has no exception handling — a
single failing oracle call makes the whole pass (and hence the run) abort
with the oracle's error, discarding the accepted relationship, instead of
keeping its rule score with `mlScore` absent. -/
theorem C5_oracle_failure_aborts :
    ML.addMlScores downOracle [sampleMLRec] =
      Except.error ("oracle unavailable") := rfl

/-- C6 (amended): the matching loop deduplicates by the ordered key
(cause file, cause line, effect file, effect line): over a whole run each
ordered key is submitted to the validator at most once (the submitted-key
list has no duplicates), and the key bookkeeping of the real matching loop
is exactly `submittedKeys`. -/
theorem C6_ordered_key_dedup :
    (∀ files : List RB.FileData, (RB.submittedKeys files).Nodup) ∧
    (∀ (idf : List (List Char × ℝ)) (t : ℝ) (files : List RB.FileData),
      (RB.matchAll idf t (RB.causesOf files) (RB.effectsOf files) []).2 =
        RB.submittedKeys files) := by
  constructor
  · intro files
    exact keysAll_nodup _ _ _ List.nodup_nil
  · intro idf t files
    exact matchAll_snd idf t _ _ _

/-- C6 (counterexample): the dedup key is ordered, not unordered — on a
two-document corpus whose two candidate sentences are each both
cause-leaning and effect-leaning, the same unordered pair is submitted to
the validator twice, once per direction. -/
theorem C6_counterexample_unordered :
    ¬ Spec.submittedOncePerUnordered ex2Files := by
  unfold Spec.submittedOncePerUnordered
  decide

/-- C7 (amended): a candidate sentence is placed in the effect-leaning pool
iff its effect-indicator count exceeds its cause-indicator count, OR its
detected direction is reverse, OR it has a causal phrase at all (the third
disjunct is the asymmetry the original claim misses). -/
theorem C7_effect_leaning_rule (files : List RB.FileData) (en : RB.Candidate) :
    en ∈ RB.effectsOf files ↔
      en ∈ RB.candidateEntries files ∧
        (en.e_cnt > en.c_cnt ∨ en.dir = CDir.reverse ∨ en.has_c = true) := by
  unfold RB.effectsOf
  rw [List.mem_filter]
  simp [decide_eq_true_eq, Bool.or_eq_true, or_assoc]

/-- C7 (counterexample): on the gold corpus, the sentence of `fileA` has a
forward causal phrase and more cause than effect indicators; the code places
it in the effect-leaning pool even though the claimed rule
(`e_cnt > c_cnt ∨ direction = reverse`) does not hold for it. -/
theorem C7_counterexample_effect_rule :
    ¬ (∀ en ∈ RB.candidateEntries goldFiles,
      (en ∈ RB.effectsOf goldFiles ↔ Spec.specEffectLeaning en)) := by
  unfold Spec.specEffectLeaning
  decide

/-- C8: after `build_idf`, the weight of every term occurring in the corpus
is ln(N / (1 + df)), and the lookup used when vectorising returns 0 for a
term occurring in no sentence (out-of-vocabulary), never an error. -/
theorem C8_idf_weights (docs : List (List Char)) (w : List Char) :
    dictGet (build_idf docs) w =
      if 0 < dfCount docs w then
        Real.log ((docs.length : ℝ) / (1 + (dfCount docs w : ℝ)))
      else 0 :=
  dictGet_build_idf docs w

/-- C9: indexing plus validation is pure — two runs of the rule pipeline
over equal corpora with equal thresholds produce equal outputs, and the
validator gives equal results on equal inputs. -/
theorem C9_determinism (t1 t2 : ℝ) (files1 files2 : List RB.FileData)
    (c e : List Char) (cf ef : String)
    (h1 : t1 = t2) (h2 : files1 = files2) :
    RB.find_relationships t1 files1 = RB.find_relationships t2 files2 ∧
    RB.validate (build_idf ((files1.map (fun f => f.sentences)).flatten)) t1 c e cf ef =
      RB.validate (build_idf ((files2.map (fun f => f.sentences)).flatten)) t2 c e cf ef := by
  subst h1
  subst h2
  exact ⟨rfl, rfl⟩

/-- C9 witness: the double run on the gold corpus at threshold 0.85. -/
theorem C9_determinism_witness :
    (0.85 : ℝ) = 0.85 ∧ goldFiles = goldFiles ∧
    (RB.find_relationships 0.85 goldFiles = RB.find_relationships 0.85 goldFiles ∧
      RB.validate (build_idf ((goldFiles.map (fun f => f.sentences)).flatten)) 0.85
          goldA goldB "fileA" "fileB" =
        RB.validate (build_idf ((goldFiles.map (fun f => f.sentences)).flatten)) 0.85
          goldA goldB "fileA" "fileB") :=
  ⟨rfl, rfl, C9_determinism 0.85 0.85 goldFiles goldFiles goldA goldB
    "fileA" "fileB" rfl rfl⟩

/-- C1: on any pair passing all five rejection checks, the validator's score
is exactly the additive sum of the spec's seven terms (`specScore`), the
returned score is that sum capped at 1, and the pair is accepted iff the
uncapped sum is at least the configured minimum confidence. -/
theorem C1_additive_score (idf : List (List Char × ℝ)) (t : ℝ) (c e : List Char)
    (cf ef : String)
    (h1 : ¬(cf = ef))
    (h2 : ¬(c.length < 50 ∨ e.length < 50))
    (h3 : ¬((RB.has_causal c).1 = false ∧ (RB.has_causal e).1 = false))
    (h4 : ¬(cosine (tfidf idf c) (tfidf idf e) < 0.15))
    (h5 : ¬(cosine (tfidf idf c) (tfidf idf e) > 0.65))
    (h6 : ¬((RB.get_entities c ∩ RB.get_entities e).card < 2)) :
    (RB.validate idf t c e cf ef).score = min (Spec.specScore idf c e) 1 ∧
    ((RB.validate idf t c e cf ef).valid ↔ t ≤ Spec.specScore idf c e) := by
  simp only [RB.validate, Spec.specScore]
  rw [if_neg h1, if_neg h2, if_neg h3, if_neg h4, if_neg h5, if_neg h6]
  exact ⟨rfl, Iff.rfl⟩

/-- C1 witness: the gold pair passes every rejection check and the claim's
equations hold for it at the default threshold. -/
theorem C1_additive_score_witness :
    ¬(("fileA" : String) = "fileB") ∧
    ¬(goldA.length < 50 ∨ goldB.length < 50) ∧
    ¬((RB.has_causal goldA).1 = false ∧ (RB.has_causal goldB).1 = false) ∧
    ¬(cosine (tfidf goldIdf goldA) (tfidf goldIdf goldB) < 0.15) ∧
    ¬(cosine (tfidf goldIdf goldA) (tfidf goldIdf goldB) > 0.65) ∧
    ¬((RB.get_entities goldA ∩ RB.get_entities goldB).card < 2) ∧
    ((RB.validate goldIdf 0.85 goldA goldB "fileA" "fileB").score =
        min (Spec.specScore goldIdf goldA goldB) 1 ∧
      ((RB.validate goldIdf 0.85 goldA goldB "fileA" "fileB").valid ↔
        0.85 ≤ Spec.specScore goldIdf goldA goldB)) := by
  have h4 : ¬(cosine (tfidf goldIdf goldA) (tfidf goldIdf goldB) < 0.15) := by
    rw [gold_sim]
    norm_num
  have h5 : ¬(cosine (tfidf goldIdf goldA) (tfidf goldIdf goldB) > 0.65) := by
    rw [gold_sim]
    norm_num
  exact ⟨by decide, by decide, by decide, h4, h5, by decide,
    C1_additive_score goldIdf 0.85 goldA goldB "fileA" "fileB"
      (by decide) (by decide) (by decide) h4 h5 (by decide)⟩

/-- C2: raising the threshold never accepts a new pair — on any input, a pair
accepted at the higher threshold `t2` is accepted at any lower threshold
`t1`, the validator's returned score does not depend on the threshold, and
the hybrid module's rule score gives the same monotonicity for its
acceptance test `rule_score ≥ min_conf`. -/
theorem C2_threshold_monotone (idf : List (List Char × ℝ)) (t1 t2 : ℝ)
    (c e : List Char) (cf ef : String)
    (h : t1 < t2) (hv : (RB.validate idf t2 c e cf ef).valid) :
    (RB.validate idf t1 c e cf ef).valid ∧
    (RB.validate idf t1 c e cf ef).score = (RB.validate idf t2 c e cf ef).score ∧
    (t2 ≤ (ML.rule_score idf c e cf ef).1 → t1 ≤ (ML.rule_score idf c e cf ef).1) := by
  refine ⟨?_, ?_, fun h2 => le_trans h.le h2⟩
  · rw [validate_cascade] at hv ⊢
    rcases hr : Spec.specRejection idf c e cf ef with _ | r
    · rw [hr] at hv
      exact le_trans h.le hv
    · rw [hr] at hv
      exact absurd hv (fun x => x)
  · rw [validate_cascade idf t1, validate_cascade idf t2]
    rcases Spec.specRejection idf c e cf ef with _ | r
    · rfl
    · rfl

/-- C2 witness: on the gold pair, acceptance at 0.9 entails acceptance at
0.85 with equal scores, and the hybrid rule score (= 1) is above both. -/
theorem C2_threshold_monotone_witness :
    (0.85 : ℝ) < 0.9 ∧
    (RB.validate goldIdf 0.9 goldA goldB "fileA" "fileB").valid ∧
    ((RB.validate goldIdf 0.85 goldA goldB "fileA" "fileB").valid ∧
      (RB.validate goldIdf 0.85 goldA goldB "fileA" "fileB").score =
        (RB.validate goldIdf 0.9 goldA goldB "fileA" "fileB").score ∧
      ((0.9 : ℝ) ≤ (ML.rule_score goldIdf goldA goldB "fileA" "fileB").1 →
        (0.85 : ℝ) ≤ (ML.rule_score goldIdf goldA goldB "fileA" "fileB").1)) ∧
    (0.9 : ℝ) ≤ (ML.rule_score goldIdf goldA goldB "fileA" "fileB").1 := by
  have hv : (RB.validate goldIdf 0.9 goldA goldB "fileA" "fileB").valid :=
    (gold_validate 0.9).2.mpr (by norm_num)
  have hr : (0.9 : ℝ) ≤ (ML.rule_score goldIdf goldA goldB "fileA" "fileB").1 := by
    rw [gold_rule]
    norm_num
  exact ⟨by norm_num, hv,
    C2_threshold_monotone goldIdf 0.85 0.9 goldA goldB "fileA" "fileB"
      (by norm_num) hv, hr⟩

/-- C3: the validator rejects by short-circuiting in the spec's order — when
the ordered cascade (`specRejection`) reports a first failing check, the
validator returns exactly that reason with score 0 and `valid = False`,
independently of the threshold and of all later checks. -/
theorem C3_rejection_order (idf : List (List Char × ℝ)) (t : ℝ)
    (c e : List Char) (cf ef : String) (r : RB.Rej)
    (h : Spec.specRejection idf c e cf ef = some r) :
    RB.validate idf t c e cf ef = ⟨False, 0, some r⟩ := by
  rw [validate_cascade, h]

/-- C3 witness: a same-document pair of short texts is rejected with reason
"same file" — the first check of the cascade wins over the later ones. -/
theorem C3_rejection_order_witness :
    Spec.specRejection [] (("tiny").data) (("tiny").data) "docX" "docX" =
      some RB.Rej.sameFile ∧
    RB.validate [] 0.85 (("tiny").data) (("tiny").data) "docX" "docX" =
      ⟨False, 0, some RB.Rej.sameFile⟩ := by
  have h : Spec.specRejection [] (("tiny").data) (("tiny").data) "docX" "docX" =
      some RB.Rej.sameFile := by
    unfold Spec.specRejection
    rw [if_pos rfl]
  exact ⟨h, C3_rejection_order [] 0.85 (("tiny").data) (("tiny").data)
    "docX" "docX" RB.Rej.sameFile h⟩

/-- C10: acceptance is decided on the uncapped sum while the returned score
is capped at 1 — for every threshold at most 1 every accepted pair's
returned score is at least the threshold, while at threshold 1.1 (strictly
between 1 and 1.2) the gold pair is accepted with returned score 1 < 1.1. -/
theorem C10_cap_below_threshold :
    (∀ (idf : List (List Char × ℝ)) (t : ℝ) (c e : List Char) (cf ef : String),
        t ≤ 1 → (RB.validate idf t c e cf ef).valid →
          t ≤ (RB.validate idf t c e cf ef).score) ∧
    ((1 : ℝ) < 1.1 ∧ (1.1 : ℝ) < 1.2 ∧
      (RB.validate goldIdf 1.1 goldA goldB "fileA" "fileB").valid ∧
      (RB.validate goldIdf 1.1 goldA goldB "fileA" "fileB").score < 1.1) := by
  constructor
  · intro idf t c e cf ef ht hv
    rw [validate_cascade] at hv ⊢
    rcases hr : Spec.specRejection idf c e cf ef with _ | r
    · rw [hr] at hv
      exact le_min hv ht
    · rw [hr] at hv
      exact absurd hv (fun x => x)
  · refine ⟨by norm_num, by norm_num, (gold_validate 1.1).2.mpr (by norm_num), ?_⟩
    rw [(gold_validate 1.1).1]
    norm_num

/-- C10 witness: the universal half applied at the gold pair with the default
threshold 0.85 ≤ 1. -/
theorem C10_cap_below_threshold_witness :
    (0.85 : ℝ) ≤ 1 ∧
    (RB.validate goldIdf 0.85 goldA goldB "fileA" "fileB").valid ∧
    0.85 ≤ (RB.validate goldIdf 0.85 goldA goldB "fileA" "fileB").score := by
  have hv : (RB.validate goldIdf 0.85 goldA goldB "fileA" "fileB").valid :=
    (gold_validate 0.85).2.mpr (by norm_num)
  exact ⟨by norm_num, hv,
    C10_cap_below_threshold.1 goldIdf 0.85 goldA goldB "fileA" "fileB"
      (by norm_num) hv⟩

end CrossDoc
